import Mathlib

/-!
Shallow embedding of the trading simulation & risk-control engine of the
Cryptor repository, together with proofs checking the natural-language
specification against it.

Sources embedded:
* `src/tools/paper_trading.py` (`PaperTrader`): the streaming paper trader.
* `src/backtest_worker.py` (`run_backtest`): the batch backtest driver.
* `src/strategies/crypto_strategy.py` (`CryptoStrategy`): the strategy
  variant with its own backtest loop and stop-condition tracking.
* `src/tools/live_monitor.py` (`LiveDataMonitor.check_trading_signal`):
  the threshold decision policy used by the streaming trader.

Python floats are embedded as exact rationals (`ℚ`); Python `None` and
falsy values are modelled with `Option` plus explicit zero tests where the
code relies on truthiness.  Logging, notification, sleeping and file I/O
are side effects with no influence on the trading state and are dropped.
-/

namespace Cryptor

/-- Trade direction, mirroring the `'BUY'` / `'SELL'` action strings. -/
inductive Action
  | buyA
  | sellA
deriving DecidableEq

/-- Reason attached to a trade, one constructor per distinct reason string
produced by `paper_trading.py` (`"止盈触发…"`, `"固定止损触发…"`,
`"移动止损触发…"`, the signal-formatted reasons of `PaperTrader.run`, and
`"手动停止"`). -/
inductive Reason
  | takeProfit
  | stopFixed
  | stopTrailing
  | signalBuy
  | signalSell
  | manualStop
deriving DecidableEq

/-- A ledger entry of `PaperTrader.trades`.  BUY dicts and SELL dicts have
different keys in the source, hence two constructors.  The `time` key is
wall-clock metadata and is dropped. -/
inductive Trade
  | buyT (price actualPrice slippage amount fee capitalBefore : ℚ) (reason : Reason)
  | sellT (price actualPrice slippage amount fee capital pnl pnlAmount : ℚ)
      (reason : Reason)
deriving DecidableEq

/-- Reason stored in a trade record. -/
def tradeReason : Trade → Reason
  | Trade.buyT _ _ _ _ _ _ r => r
  | Trade.sellT _ _ _ _ _ _ _ _ r => r

/-- State of a `PaperTrader` instance (`paper_trading.py`, `__init__`).
The monitor, notifier, log-file and timing fields carry no trading state
and are dropped. -/
structure Trader where
  initialCapital : ℚ
  capital : ℚ
  position : ℚ
  entryPrice : ℚ
  trades : List Trade
  enableFees : Bool
  enableSlippage : Bool
  feeRateSpot : ℚ
  feeRateFutures : ℚ
  slippageRate : ℚ
  enableStopLoss : Bool
  enableTakeProfit : Bool
  takeProfitRate : ℚ
  stopLossRate : ℚ
  trailingStopRate : ℚ
  highestPrice : ℚ
  totalFees : ℚ
  stopLossCount : ℕ
  takeProfitCount : ℕ
  futures : Bool
deriving DecidableEq

/-- Mirror of `PaperTrader.__init__` with initial capital `c0`; `futures` is
`market_type == 'futures'`. -/
def initTrader (c0 : ℚ) (fees slip sl tp futures : Bool) : Trader :=
  { initialCapital := c0
    capital := c0
    position := 0
    entryPrice := 0
    trades := []
    enableFees := fees
    enableSlippage := slip
    feeRateSpot := 1/1000
    feeRateFutures := 4/10000
    slippageRate := 5/10000
    enableStopLoss := sl
    enableTakeProfit := tp
    takeProfitRate := 1/10
    stopLossRate := 5/100
    trailingStopRate := 3/100
    highestPrice := 0
    totalFees := 0
    stopLossCount := 0
    takeProfitCount := 0
    futures := futures }

/-- Mirror of `PaperTrader._get_fee_rate`. -/
def feeRate (t : Trader) : ℚ :=
  if t.enableFees then (if t.futures then t.feeRateFutures else t.feeRateSpot) else 0

/-- Mirror of `PaperTrader._apply_slippage`. -/
def applySlippage (t : Trader) (price : ℚ) (isBuy : Bool) : ℚ :=
  if t.enableSlippage then
    (if isBuy then price * (1 + t.slippageRate) else price * (1 - t.slippageRate))
  else price

/-- The `if current_price > self.highest_price: self.highest_price =
current_price` update of `PaperTrader._check_stop_conditions`. -/
def updateHighT (t : Trader) (p : ℚ) : Trader :=
  if p > t.highestPrice then { t with highestPrice := p } else t

/-- Mirror of `PaperTrader._check_stop_conditions`: returns the
`(take_profit_triggered, stop_loss_triggered)` pair plus the trader with
`highest_price` updated (the method mutates `self.highest_price`). -/
def checkStopConditions (t : Trader) (p : ℚ) : Bool × Bool × Trader :=
  if t.position = 0 then (false, false, t)
  else
    let t1 := updateHighT t p
    let pnlRate := (p - t1.entryPrice) / t1.entryPrice
    let tp := t1.enableTakeProfit && decide (pnlRate ≥ t1.takeProfitRate)
    let slFixed := decide (pnlRate ≤ -t1.stopLossRate)
    let slTrail := decide (t1.highestPrice > t1.entryPrice)
        && decide ((t1.highestPrice - p) / t1.highestPrice ≥ t1.trailingStopRate)
    let sl := t1.enableStopLoss && (slFixed || slTrail)
    (tp, sl, t1)

/-- Mirror of `PaperTrader.buy`: returns the boolean result together with the
updated trader. -/
def buy (t : Trader) (price : ℚ) (reason : Reason) : Bool × Trader :=
  if t.position > 0 then (false, t)
  else
    let actualPrice := applySlippage t price true
    let fee := t.capital * feeRate t
    let availableCapital := t.capital - fee
    let amount := availableCapital / actualPrice
    let tr := Trade.buyT price actualPrice (actualPrice - price) amount fee
        t.capital reason
    (true,
      { t with
        position := amount
        entryPrice := actualPrice
        highestPrice := actualPrice
        totalFees := t.totalFees + fee
        trades := t.trades ++ [tr] })

/-- The `self.trades[-1]['capital_before']` lookup performed by
`PaperTrader.sell`.  In every state the engine reaches with an open
position the last record is a BUY; the other cases (where Python would
raise `IndexError` / `KeyError`) are given the junk value `0`. -/
def lastCapitalBefore : List Trade → ℚ
  | [] => 0
  | [Trade.buyT _ _ _ _ _ cb _] => cb
  | [Trade.sellT _ _ _ _ _ _ _ _ _] => 0
  | _ :: rest => lastCapitalBefore rest

/-- Mirror of `PaperTrader.sell`: returns the boolean result together with the
updated trader. -/
def sell (t : Trader) (price : ℚ) (reason : Reason) : Bool × Trader :=
  if t.position = 0 then (false, t)
  else
    let actualPrice := applySlippage t price false
    let sellAmount := t.position * actualPrice
    let fee := sellAmount * feeRate t
    let capital := sellAmount - fee
    let pnl := (actualPrice - t.entryPrice) / t.entryPrice
    let pnlAmount := capital - lastCapitalBefore t.trades
    let tr := Trade.sellT price actualPrice (price - actualPrice) t.position fee
        capital (pnl * 100) pnlAmount reason
    (true,
      { t with
        capital := capital
        totalFees := t.totalFees + fee
        trades := t.trades ++ [tr]
        position := 0
        entryPrice := 0
        highestPrice := 0 })

/-- Signal snapshot as returned by
`LiveDataMonitor.calculate_live_signals` (the `time`/`close` keys are not
consulted by the policy). -/
structure Signals where
  ha : ℚ
  qs : ℚ
  qj : ℚ
  wd3 : ℚ
deriving DecidableEq

/-- The buy threshold group `trading_conditions['buy']` of the strategy
configuration. -/
structure BuyParams where
  HA_threshold : ℚ
  WD3_max : ℚ
  QS_threshold : ℚ
deriving DecidableEq

/-- The sell threshold group `trading_conditions['sell']` of the strategy
configuration. -/
structure SellParams where
  QJ_threshold : ℚ
  WD3_threshold : ℚ
deriving DecidableEq

/-- Default thresholds of `DEFAULT_STRATEGY_PARAMS` in
`tools/crypto_config.py`. -/
def defaultBuyParams : BuyParams := ⟨25000, 150, 1250⟩

/-- Default sell thresholds of `DEFAULT_STRATEGY_PARAMS`. -/
def defaultSellParams : SellParams := ⟨50000, 200⟩

/-- Mirror of `LiveDataMonitor.check_trading_signal`, returning `'BUY'`, `'SELL'` or `None`.
The buy group is tested first; `qs` is read but not used by the source. -/
def checkTradingSignal (bp : BuyParams) (sp : SellParams) (s : Signals) :
    Option Action :=
  if s.ha > bp.HA_threshold ∧ s.wd3 < bp.WD3_max then some Action.buyA
  else if |s.qj| > sp.QJ_threshold ∨ s.wd3 > sp.WD3_threshold then some Action.sellA
  else none

/-- The signal-execution part of the `PaperTrader.run` loop body
(`if action == 'BUY' and self.position == 0: … elif action == 'SELL' and
self.position > 0: …`). -/
def execSignal (bp : BuyParams) (sp : SellParams) (t : Trader) (price : ℚ)
    (sig : Signals) : Trader :=
  match checkTradingSignal bp sp sig with
  | some Action.buyA => if t.position = 0 then (buy t price Reason.signalBuy).2 else t
  | some Action.sellA => if t.position > 0 then (sell t price Reason.signalSell).2 else t
  | none => t

/-- One iteration of the `PaperTrader.run` polling loop.  `price?` is the
result of `get_current_price` and `signals?` of `calculate_live_signals`;
the body runs only under `if signals and price:` (Python truthiness, so a
price of `0.0` also skips the body).  Display, reporting and sleeping are
dropped. -/
def runStep (bp : BuyParams) (sp : SellParams) (t : Trader) (price? : Option ℚ)
    (signals? : Option Signals) : Trader :=
  match price?, signals? with
  | some price, some sig =>
    if price = 0 then t
    else if t.position > 0 then
      let c := checkStopConditions t price
      let t1 := c.2.2
      if c.1 then
        (sell { t1 with takeProfitCount := t1.takeProfitCount + 1 } price
          Reason.takeProfit).2
      else if c.2.1 then
        let t2 := { t1 with stopLossCount := t1.stopLossCount + 1 }
        let pnl := (price - t2.entryPrice) / t2.entryPrice
        if pnl ≤ -t2.stopLossRate then (sell t2 price Reason.stopFixed).2
        else (sell t2 price Reason.stopTrailing).2
      else execSignal bp sp t1 price sig
    else execSignal bp sp t price sig
  | _, _ => t

/-- A streaming run over a list of polling cycles. -/
def runBars (bp : BuyParams) (sp : SellParams) (t : Trader)
    (bars : List (Option ℚ × Option Signals)) : Trader :=
  bars.foldl (fun t b => runStep bp sp t b.1 b.2) t

/-- The `KeyboardInterrupt` handler of `PaperTrader.run`: if a position is
open, fetch the current price and, when the fetch yields a truthy price,
sell with reason `"手动停止"` (manual stop). -/
def finalizeRun (t : Trader) (price? : Option ℚ) : Trader :=
  if t.position > 0 then
    match price? with
    | some p => if p = 0 then t else (sell t p Reason.manualStop).2
    | none => t
  else t

/-! ### Batch driver: `run_backtest` in `src/backtest_worker.py` -/

/-- One signal row of the batch backtest frame (columns consulted by the
loop; `stime` is metadata and dropped). -/
structure Row where
  ha : ℚ
  wd3 : ℚ
  qj : ℚ
  close : ℚ
deriving DecidableEq

/-- Ledger entry of the batch driver: BUY dicts carry
`{price, capital}`, SELL dicts `{price, capital, pnl}`, and the final
forced close is tagged `'SELL (END)'`. -/
inductive BTrade
  | buyT (price capital : ℚ)
  | sellT (price capital pnl : ℚ)
  | sellEnd (price capital pnl : ℚ)
deriving DecidableEq

/-- Mutable loop state of `run_backtest`. -/
structure BState where
  capital : ℚ
  position : ℚ
  entryPrice : ℚ
  trades : List BTrade
deriving DecidableEq

/-- One iteration of the `run_backtest` loop body. -/
def bStep (bp : BuyParams) (sp : SellParams) (s : BState) (r : Row) : BState :=
  if s.position = 0 ∧ r.ha > bp.HA_threshold ∧ r.wd3 < bp.WD3_max then
    { s with
      position := s.capital / r.close
      entryPrice := r.close
      trades := s.trades ++ [BTrade.buyT r.close s.capital] }
  else if s.position > 0 ∧ (|r.qj| > sp.QJ_threshold ∨ r.wd3 > sp.WD3_threshold) then
    let pnl := (r.close - s.entryPrice) / s.entryPrice
    let cap := s.capital * (1 + pnl)
    { s with
      capital := cap
      position := 0
      entryPrice := 0
      trades := s.trades ++ [BTrade.sellT r.close cap (pnl * 100)] }
  else s

/-- The forced close after the loop (`if position > 0:` … `'SELL (END)'`).
The source updates capital and appends the record but does not reset
`position` / `entry_price`. -/
def bFinal (s : BState) (lastClose : ℚ) : BState :=
  if s.position > 0 then
    let pnl := (lastClose - s.entryPrice) / s.entryPrice
    let cap := s.capital * (1 + pnl)
    { s with
      capital := cap
      trades := s.trades ++ [BTrade.sellEnd lastClose cap (pnl * 100)] }
  else s

/-- The whole accounting core of `run_backtest`: fold the loop body over
the rows from `start_index` on, then force-close at the last row's close
(`signals.iloc[-1]['close']`). -/
def runBacktest (bp : BuyParams) (sp : SellParams) (c0 : ℚ) (rows : List Row) :
    BState :=
  let s := rows.foldl (bStep bp sp) ⟨c0, 0, 0, []⟩
  match rows.getLast? with
  | some r => bFinal s r.close
  | none => s

/-! ### Strategy variant: `CryptoStrategy` in
`src/strategies/crypto_strategy.py` -/

/-- Value of `CryptoStrategy.last_signal` (`''`, `'BUY'`, `'SELL'`). -/
inductive LS
  | empty
  | buy
  | sell
deriving DecidableEq

/-- Reason string of a `CryptoStrategy.backtest` trade record
(`'SIGNAL'`, `'TAKE_PROFIT'`, `'STOP_LOSS'`). -/
inductive CReason
  | signal
  | takeProfit
  | stopLoss
deriving DecidableEq

/-- Trade record appended by `CryptoStrategy.backtest` (the `time` key is
dropped). -/
structure CTrade where
  action : Action
  price : ℚ
  reason : CReason
deriving DecidableEq

/-- Combined state of the `CryptoStrategy.backtest` loop: the loop-local
`position` variable plus the instance fields it reads and writes.
`selfPosition` is the instance field `self.position`, which the backtest
loop does NOT reset on stop-triggered exits. -/
structure CState where
  position : ℕ
  selfPosition : ℕ
  lastSignal : LS
  tradeCount : ℕ
  entryPrice : ℚ
  highestPrice : ℚ
  lowestPrice : ℚ
  trades : List CTrade
  stopLossCount : ℕ
  takeProfitCount : ℕ
  enableStopLoss : Bool
  enableTakeProfit : Bool
  trailingStop : Bool
  takeProfitRate : ℚ
  stopLossRate : ℚ
  trailingStopRate : ℚ
deriving DecidableEq

/-- The `if current_price > self.highest_price:` update of
`CryptoStrategy._check_stop_conditions`. -/
def updateHighS (st : CState) (p : ℚ) : CState :=
  if p > st.highestPrice then { st with highestPrice := p } else st

/-- The `if current_price < self.lowest_price or self.lowest_price == 0:`
update of `CryptoStrategy._check_stop_conditions`. -/
def updateLowS (st : CState) (p : ℚ) : CState :=
  if p < st.lowestPrice ∨ st.lowestPrice = 0 then { st with lowestPrice := p }
  else st

/-- Mirror of `CryptoStrategy._check_stop_conditions`: returns the trigger pair plus
the state with `highest_price` / `lowest_price` updated. -/
def checkStopS (st : CState) (p : ℚ) : Bool × Bool × CState :=
  if st.selfPosition = 0 ∨ st.entryPrice = 0 then (false, false, st)
  else
    let st1 := updateLowS (updateHighS st p) p
    let profitRate := (p - st1.entryPrice) / st1.entryPrice
    let tp := decide (profitRate ≥ st1.takeProfitRate)
    let slFixed := decide (profitRate ≤ -st1.stopLossRate)
    let slTrail := st1.trailingStop && decide (st1.highestPrice > st1.entryPrice)
        && decide ((st1.highestPrice - p) / st1.highestPrice ≥ st1.trailingStopRate)
    (tp, slFixed || slTrail, st1)

/-- Mirror of `CryptoStrategy._analyze_signals` followed by
`_execute_buy` / `_execute_sell`: the hard-coded thresholds of the source
(HA > 33000, |QS| > 1250, WD3 < 100; |QJ| > 70000 or WD3 > 233) gate the
signal, and buys are only generated when `self.position == 0`, sells only
when `self.position > 0`. -/
def analyzeSignals (st : CState) (ha qs qj wd3 : ℚ) : CState :=
  let buySig := decide (ha > 33000) && decide (|qs| > 1250) && decide (wd3 < 100)
      && decide (st.selfPosition = 0)
  let sellSig := (decide (|qj| > 70000) || decide (wd3 > 233))
      && decide (st.selfPosition > 0)
  if buySig then
    { st with selfPosition := 1, lastSignal := LS.buy, tradeCount := st.tradeCount + 1 }
  else if sellSig then
    { st with selfPosition := 0, lastSignal := LS.sell, tradeCount := st.tradeCount + 1 }
  else st

/-- One bar of the `CryptoStrategy.backtest` input.  `on_bar` consults the
signal calculator, an external computation; each bar therefore carries the
signal snapshot that call returns (`hasSignals = false` models an empty
snapshot, on which `on_bar` returns without analysing). -/
structure CBar where
  close : ℚ
  hasSignals : Bool
  ha : ℚ
  qs : ℚ
  qj : ℚ
  wd3 : ℚ
deriving DecidableEq

/-- The signal phase of one `CryptoStrategy.backtest` iteration: run
`on_bar`, translate `last_signal` into a trade record, reset
`last_signal`. -/
def cryptoSignalPhase (st : CState) (bar : CBar) : CState :=
  let p := bar.close
  let st := if bar.hasSignals then analyzeSignals st bar.ha bar.qs bar.qj bar.wd3
      else st
  let st2 :=
    if st.lastSignal = LS.buy ∧ st.position = 0 then
      { st with
        position := 1
        entryPrice := p
        highestPrice := p
        lowestPrice := p
        trades := st.trades ++ [⟨Action.buyA, p, CReason.signal⟩] }
    else if st.lastSignal = LS.sell ∧ st.position > 0 then
      { st with
        position := 0
        entryPrice := 0
        highestPrice := 0
        lowestPrice := 0
        trades := st.trades ++ [⟨Action.sellA, p, CReason.signal⟩] }
    else st
  { st2 with lastSignal := LS.empty }

/-- One full iteration of the `CryptoStrategy.backtest` loop: stop
checks first (take-profit branch before stop-loss branch, each ending the
bar with `continue`), then the signal phase. -/
def cryptoStep (st : CState) (bar : CBar) : CState :=
  let p := bar.close
  if st.position > 0 then
    let c := checkStopS st p
    let tpT := c.1
    let slT := c.2.1
    let st1 := c.2.2
    if st1.enableTakeProfit && tpT then
        { st1 with
          position := 0
          trades := st1.trades ++ [⟨Action.sellA, p, CReason.takeProfit⟩]
          takeProfitCount := st1.takeProfitCount + 1
          entryPrice := 0
          highestPrice := 0
          lowestPrice := 0 }
      else if st1.enableStopLoss && slT then
        { st1 with
          position := 0
          trades := st1.trades ++ [⟨Action.sellA, p, CReason.stopLoss⟩]
          stopLossCount := st1.stopLossCount + 1
          entryPrice := 0
          highestPrice := 0
          lowestPrice := 0 }
    else cryptoSignalPhase st1 bar
  else cryptoSignalPhase st bar

/-- Mirror of `CryptoStrategy._apply_slippage` with the instance's fixed
`slippage_rate = 0.0005` (the strategy variant has no disable toggle). -/
def applySlippageS (price : ℚ) (isBuy : Bool) : ℚ :=
  if isBuy then price * (1 + 5/10000) else price * (1 - 5/10000)

/-! ### Exception-monad view of the entry/exit operations

The specification asserts that entering while open and exiting while flat
raise an `InvalidStateError`.  To state that claim the two operations are
embedded into an exception monad; the source raises no exception on any
path (both guard clauses log a warning and `return False`), so every path
of the embedding is `Except.ok`. -/

/-- The error taxonomy postulated by the specification. -/
inductive TradeError
  | invalidState
deriving DecidableEq

/-- The operation `PaperTrader.buy` lifted to the exception monad: no path raises. -/
def buyE (t : Trader) (price : ℚ) (reason : Reason) :
    Except TradeError (Bool × Trader) :=
  Except.ok (buy t price reason)

/-- The operation `PaperTrader.sell` lifted to the exception monad: no path raises. -/
def sellE (t : Trader) (price : ℚ) (reason : Reason) :
    Except TradeError (Bool × Trader) :=
  Except.ok (sell t price reason)

/-! ## Concrete states used by witnesses and counterexamples -/

/-- A freshly initialised trader with all frictions and stops enabled. -/
def flatEx : Trader := initTrader 10000 true true true true false

/-- A trader holding an open position of 100 units entered at 100, as
reached after a zero-friction buy of 10000 at price 100. -/
def openEx : Trader :=
  { flatEx with
    position := 100
    entryPrice := 100
    highestPrice := 100
    trades := [Trade.buyT 100 100 0 100 0 10000 Reason.signalBuy] }

/-- A fresh `CryptoStrategy.backtest` state (flat, default rates). -/
def flatC : CState :=
  { position := 0
    selfPosition := 0
    lastSignal := LS.empty
    tradeCount := 0
    entryPrice := 0
    highestPrice := 0
    lowestPrice := 0
    trades := []
    stopLossCount := 0
    takeProfitCount := 0
    enableStopLoss := true
    enableTakeProfit := true
    trailingStop := true
    takeProfitRate := 1/10
    stopLossRate := 5/100
    trailingStopRate := 3/100 }

/-- A bar whose signal snapshot satisfies the strategy's hard-coded buy
thresholds. -/
def entryBar : CBar := ⟨100, true, 40000, 2000, 0, 50⟩

/-- An open `CryptoStrategy.backtest` state entered at price 100. -/
def openC : CState :=
  { flatC with
    position := 1
    selfPosition := 1
    entryPrice := 100
    highestPrice := 100
    lowestPrice := 100
    trades := [⟨Action.buyA, 100, CReason.signal⟩] }

/-! ## Derived record and run definitions used by the proofs -/

/-- The SELL record that `PaperTrader.sell` appends for the state `t`. -/
def sellRecord (t : Trader) (p : ℚ) (r : Reason) : Trade :=
  Trade.sellT p (applySlippage t p false) (p - applySlippage t p false)
    t.position (t.position * applySlippage t p false * feeRate t)
    (t.position * applySlippage t p false
      - t.position * applySlippage t p false * feeRate t)
    ((applySlippage t p false - t.entryPrice) / t.entryPrice * 100)
    (t.position * applySlippage t p false
      - t.position * applySlippage t p false * feeRate t
      - lastCapitalBefore t.trades) r

/-- An observation sequence: `_check_stop_conditions` applied to each bar
price in turn (strategy variant). -/
def observeSeq (st : CState) (ps : List ℚ) : CState :=
  ps.foldl (fun s p => (checkStopS s p).2.2) st

/-- An observation sequence for the streaming trader. -/
def observeSeqT (t : Trader) (ps : List ℚ) : Trader :=
  ps.foldl (fun s p => (checkStopConditions s p).2.2) t

/-- A batch state with an open position of 100 units entered at 100. -/
def bOpen : BState := ⟨10000, 100, 100, [BTrade.buyT 100 10000]⟩

/-- Contribution of a batch-ledger record to the compounding product:
SELL records (including the forced end-of-data close) store
`pnl * 100`, so the per-trade return is `pnl / 100`. -/
def bFactor : BTrade → ℚ
  | BTrade.buyT _ _ => 1
  | BTrade.sellT _ _ pnl => 1 + pnl / 100
  | BTrade.sellEnd _ _ pnl => 1 + pnl / 100

/-- The product `Π (1 + pnl_i)` over the realized returns of a batch
ledger. -/
def bLedgerProduct (ts : List BTrade) : ℚ := (ts.map bFactor).prod

/-- Contribution of a streaming-ledger record to the compounding
product. -/
def tradeFactor : Trade → ℚ
  | Trade.buyT _ _ _ _ _ _ _ => 1
  | Trade.sellT _ _ _ _ _ _ pnl _ _ => 1 + pnl / 100

/-- The product `Π (1 + pnl_i)` over the realized returns of a streaming
ledger. -/
def ledgerProduct (ts : List Trade) : ℚ := (ts.map tradeFactor).prod

/-- Zero-friction invariant of the streaming trader: fees and slippage
disabled, the capital equal to the initial capital compounded by the
realized returns, and — whenever a position is held — a nonzero entry
price with `position * entryPrice = capital`. -/
def Inv (c0 : ℚ) (t : Trader) : Prop :=
  t.enableFees = false ∧ t.enableSlippage = false ∧
  t.capital = c0 * ledgerProduct t.trades ∧
  (¬ t.position = 0 → ¬ t.entryPrice = 0 ∧ t.position * t.entryPrice = t.capital)

/-- The scenario trader holding 100 units entered at 100 with zero
friction and peak `h` (capital 10000, stops enabled). -/
def t8Mid (h : ℚ) : Trader :=
  { initTrader 10000 false false true true false with
    position := 100
    entryPrice := 100
    highestPrice := h
    trades := [Trade.buyT 100 100 0 100 0 10000 Reason.signalBuy] }

/-- The scenario trader after the take-profit exit at price `p`: capital
`100 * p`, one take-profit count, and the SELL record carrying
`pnlPercent = p - 100`. -/
def t8Sold (p : ℚ) : Trader :=
  { initTrader 10000 false false true true false with
    capital := 100 * p
    position := 0
    entryPrice := 0
    highestPrice := 0
    takeProfitCount := 1
    trades := [Trade.buyT 100 100 0 100 0 10000 Reason.signalBuy,
      Trade.sellT p p 0 100 0 (100 * p) (p - 100) (100 * p - 10000)
        Reason.takeProfit] }

/-- A complete scenario run: zero-friction trader with initial capital
10000, entry at 100, then the price sequence `qs` with signal snapshot
`sig` on every polling cycle. -/
def t8Run (bp : BuyParams) (sp : SellParams) (sig : Signals) (qs : List ℚ) :
    Trader :=
  runBars bp sp
    (buy (initTrader 10000 false false true true false) 100 Reason.signalBuy).2
    (qs.map fun q => (some q, some sig))

/-! ## Helper lemmas about the entry/exit operations -/

lemma buy_of_open (t : Trader) (p : ℚ) (r : Reason) (h : t.position > 0) :
    buy t p r = (false, t) := by
  unfold buy
  rw [if_pos h]

lemma sell_of_flat (t : Trader) (p : ℚ) (r : Reason) (h : t.position = 0) :
    sell t p r = (false, t) := by
  unfold sell
  rw [if_pos h]

lemma buy_of_flat (t : Trader) (p : ℚ) (r : Reason) (h : ¬ t.position > 0) :
    buy t p r =
      (true,
        { t with
          position := (t.capital - t.capital * feeRate t) / applySlippage t p true
          entryPrice := applySlippage t p true
          highestPrice := applySlippage t p true
          totalFees := t.totalFees + t.capital * feeRate t
          trades := t.trades ++ [Trade.buyT p (applySlippage t p true)
              (applySlippage t p true - p)
              ((t.capital - t.capital * feeRate t) / applySlippage t p true)
              (t.capital * feeRate t) t.capital r] }) := by
  unfold buy
  rw [if_neg h]

lemma sell_of_open (t : Trader) (p : ℚ) (r : Reason) (h : ¬ t.position = 0) :
    sell t p r =
      (true,
        { t with
          capital := t.position * applySlippage t p false
              - t.position * applySlippage t p false * feeRate t
          totalFees := t.totalFees + t.position * applySlippage t p false * feeRate t
          trades := t.trades ++ [Trade.sellT p (applySlippage t p false)
              (p - applySlippage t p false) t.position
              (t.position * applySlippage t p false * feeRate t)
              (t.position * applySlippage t p false
                - t.position * applySlippage t p false * feeRate t)
              ((applySlippage t p false - t.entryPrice) / t.entryPrice * 100)
              (t.position * applySlippage t p false
                - t.position * applySlippage t p false * feeRate t
                - lastCapitalBefore t.trades) r]
          position := 0
          entryPrice := 0
          highestPrice := 0 }) := by
  unfold sell
  rw [if_neg h]

lemma sell_trades_eq (t : Trader) (p : ℚ) (r : Reason) (h : ¬ t.position = 0) :
    (sell t p r).2.trades = t.trades ++ [sellRecord t p r] := by
  rw [sell_of_open t p r h]
  rfl

lemma tradeReason_sellRecord (t : Trader) (p : ℚ) (r : Reason) :
    tradeReason (sellRecord t p r) = r := rfl

/-! ## C1: invalid-state entry/exit does not raise -/

/-- C1, counterexample: at the concrete open state `openEx` and the flat
state `flatEx`, entering while open and exiting while flat do not fail
with `InvalidStateError`: both calls return normally with the value
`False` and the state unchanged, so no error propagates and the run is
not aborted. -/
theorem invalidState_not_raised_counterexample :
    buyE openEx 123 Reason.signalBuy = Except.ok (false, openEx) ∧
    sellE flatEx 95 Reason.signalSell = Except.ok (false, flatEx) ∧
    buyE openEx 123 Reason.signalBuy ≠ Except.error TradeError.invalidState ∧
    sellE flatEx 95 Reason.signalSell ≠ Except.error TradeError.invalidState := by
  refine ⟨?_, ?_, ?_, ?_⟩
  · unfold buyE
    rw [buy_of_open _ _ _ (by decide)]
  · unfold sellE
    rw [sell_of_flat _ _ _ (by decide)]
  · unfold buyE
    rw [buy_of_open _ _ _ (by decide)]
    exact fun h => Except.noConfusion h
  · unfold sellE
    rw [sell_of_flat _ _ _ (by decide)]
    exact fun h => Except.noConfusion h

/-- C1, amended: calling `buy` while a position is open and calling
`sell` while flat are rejected by returning `False` with the trader state
unchanged; no `InvalidStateError` (or any exception) is raised on any
path, and the run continues. -/
theorem invalid_entry_exit_returns_false (t u : Trader) (p q : ℚ)
    (r r' : Reason) (ht : t.position > 0) (hu : u.position = 0) :
    buyE t p r = Except.ok (false, t) ∧ sellE u q r' = Except.ok (false, u) := by
  constructor
  · unfold buyE
    rw [buy_of_open t p r ht]
  · unfold sellE
    rw [sell_of_flat u q r' hu]

/-- C1, witness: the amended theorem applied at the concrete states. -/
theorem invalid_entry_exit_returns_false_witness :
    buyE openEx 123 Reason.signalBuy = Except.ok (false, openEx) ∧
    sellE flatEx 95 Reason.signalSell = Except.ok (false, flatEx) :=
  invalid_entry_exit_returns_false openEx flatEx 123 95 Reason.signalBuy
    Reason.signalSell (by decide) (by decide)

/-! ## C10: invalid-state entry/exit is a state-preserving no-op -/

/-- C10: calling `buy` while a position is open and calling `sell` while
flat each return `False` and leave the entire account state unchanged —
capital, position quantity, entry price, highest price, total fees, the
stop-loss/take-profit counters, and the trade ledger (no record is
appended). -/
theorem invalid_entry_exit_noop (t u : Trader) (p q : ℚ) (r r' : Reason)
    (ht : t.position > 0) (hu : u.position = 0) :
    buy t p r = (false, t) ∧ sell u q r' = (false, u) :=
  ⟨buy_of_open t p r ht, sell_of_flat u q r' hu⟩

/-- C10, witness: the theorem applied at the concrete states. -/
theorem invalid_entry_exit_noop_witness :
    buy openEx 123 Reason.signalBuy = (false, openEx) ∧
    sell flatEx 95 Reason.signalSell = (false, flatEx) :=
  invalid_entry_exit_noop openEx flatEx 123 95 Reason.signalBuy
    Reason.signalSell (by decide) (by decide)

/-! ## C6: exit bookkeeping -/

/-- C6: selling an open position executes at the sell-side slippage
price, sets capital to `quantity * executedPrice` minus the fee computed
on that notional, resets the position fields to flat, records
`pnlPercent = (executedPrice - entryPrice) / entryPrice * 100`, and the
appended SELL record's resulting capital equals the account's capital
immediately after the call. -/
theorem sell_exit_spec (t : Trader) (p : ℚ) (r : Reason)
    (h : ¬ t.position = 0) :
    (sell t p r).2.capital
        = t.position * applySlippage t p false
          - t.position * applySlippage t p false * feeRate t ∧
    (sell t p r).2.position = 0 ∧
    (sell t p r).2.entryPrice = 0 ∧
    (sell t p r).2.highestPrice = 0 ∧
    (sell t p r).2.trades
        = t.trades ++ [Trade.sellT p (applySlippage t p false)
            (p - applySlippage t p false) t.position
            (t.position * applySlippage t p false * feeRate t)
            ((sell t p r).2.capital)
            ((applySlippage t p false - t.entryPrice) / t.entryPrice * 100)
            ((sell t p r).2.capital - lastCapitalBefore t.trades) r] := by
  rw [sell_of_open t p r h]
  exact ⟨rfl, rfl, rfl, rfl, rfl⟩

/-- C6, witness: the theorem applied at the concrete open state. -/
theorem sell_exit_spec_witness :
    (sell openEx 90 Reason.signalSell).2.position = 0 ∧
    (sell openEx 90 Reason.signalSell).2.capital
        = openEx.position * applySlippage openEx 90 false
          - openEx.position * applySlippage openEx 90 false * feeRate openEx :=
  ⟨(sell_exit_spec openEx 90 Reason.signalSell (by decide)).2.1,
    (sell_exit_spec openEx 90 Reason.signalSell (by decide)).1⟩

/-! ## C5: entry bookkeeping -/

/-- C5, counterexample: the claim that an entry sets
`lowestPriceSinceEntry` to the slippage-adjusted executed price fails.
The streaming trader keeps no lowest-price field at all, and in the
strategy variant — the only engine copy that tracks a lowest price — the
entry at requested price 100 sets `lowest_price` (and `entry_price`) to
the raw bar price 100, while the buy-side executed price is
`100 * (1 + 0.0005) = 100.05`. -/
theorem entry_lowest_not_executed_counterexample :
    (cryptoStep flatC entryBar).lowestPrice = 100 ∧
    (cryptoStep flatC entryBar).entryPrice = 100 ∧
    applySlippageS 100 true = 10005/100 ∧
    ¬ (cryptoStep flatC entryBar).lowestPrice = applySlippageS 100 true := by
  refine ⟨?_, ?_, ?_, ?_⟩ <;>
    norm_num [cryptoStep, cryptoSignalPhase, analyzeSignals, flatC, entryBar,
      applySlippageS]

/-- C5, amended: entering from the flat state at requested price `p`
executes at the buy-side slippage price, charges the entry fee
`capital * feeRate` on the pre-trade capital, sets the quantity to
`(capital - fee) / executedPrice` and both `entryPrice` and
`highestPriceSinceEntry` to the executed price (no lowest price is
tracked by the streaming trader); with spot fees at rate 0.001 and
capital 1000 the fee is exactly 1, the quantity is `999 / executedPrice`,
and `totalFeesPaid` grows by exactly 1 on the buy and by
`notional * 0.001` on the matching sell. -/
theorem buy_entry_spec :
    (∀ (t : Trader) (p : ℚ) (r : Reason), ¬ t.position > 0 →
      (buy t p r).1 = true ∧
      (buy t p r).2.entryPrice = applySlippage t p true ∧
      (buy t p r).2.highestPrice = applySlippage t p true ∧
      (buy t p r).2.position
          = (t.capital - t.capital * feeRate t) / applySlippage t p true ∧
      (buy t p r).2.totalFees = t.totalFees + t.capital * feeRate t ∧
      (buy t p r).2.trades
          = t.trades ++ [Trade.buyT p (applySlippage t p true)
              (applySlippage t p true - p) ((buy t p r).2.position)
              (t.capital * feeRate t) t.capital r]) ∧
    (∀ (t : Trader) (p : ℚ) (r : Reason), ¬ t.position > 0 →
      t.enableFees = true → t.futures = false → t.feeRateSpot = 1/1000 →
      t.capital = 1000 →
      t.capital * feeRate t = 1 ∧
      (buy t p r).2.position = 999 / applySlippage t p true ∧
      (buy t p r).2.totalFees = t.totalFees + 1) ∧
    (∀ (t : Trader) (p : ℚ) (r : Reason), ¬ t.position = 0 →
      t.enableFees = true → t.futures = false → t.feeRateSpot = 1/1000 →
      (sell t p r).2.totalFees
          = t.totalFees + t.position * applySlippage t p false * (1/1000)) := by
  have hfr : ∀ (t : Trader), t.enableFees = true → t.futures = false →
      t.feeRateSpot = 1/1000 → feeRate t = 1/1000 := by
    intro t hf hu hs
    unfold feeRate
    rw [hf, hu, hs]
    rfl
  refine ⟨?_, ?_, ?_⟩
  · intro t p r h
    rw [buy_of_flat t p r h]
    exact ⟨rfl, rfl, rfl, rfl, rfl, rfl⟩
  · intro t p r h hf hu hs hc
    have hr := hfr t hf hu hs
    rw [buy_of_flat t p r h, hr, hc]
    norm_num
  · intro t p r h hf hu hs
    rw [sell_of_open t p r h, hfr t hf hu hs]

/-- C5, witness: the amended theorem applied at concrete states — a
zero-friction flat trader, a 1000-capital spot trader with fees enabled,
and the open state `openEx`. -/
theorem buy_entry_spec_witness :
    (buy flatEx 100 Reason.signalBuy).1 = true ∧
    ((initTrader 1000 true false true true false).capital
        * feeRate (initTrader 1000 true false true true false) = 1) ∧
    (sell openEx 90 Reason.signalSell).2.totalFees
        = openEx.totalFees
          + openEx.position * applySlippage openEx 90 false * (1/1000) :=
  ⟨(buy_entry_spec.1 flatEx 100 Reason.signalBuy (by decide)).1,
    (buy_entry_spec.2.1 (initTrader 1000 true false true true false) 100
      Reason.signalBuy (by decide) rfl rfl rfl rfl).1,
    buy_entry_spec.2.2 openEx 90 Reason.signalSell (by decide) rfl rfl rfl⟩

/-! ## C3: monotone peak/trough tracking under observation -/

lemma updateHighS_eq (st : CState) (p : ℚ) :
    updateHighS st p = { st with highestPrice := max st.highestPrice p } := by
  unfold updateHighS
  rcases le_or_lt p st.highestPrice with h | h
  · rw [if_neg (not_lt.mpr h), max_eq_left h]
  · rw [if_pos h, max_eq_right h.le]

lemma updateLowS_pos (st : CState) (p : ℚ) (h0 : 0 < st.lowestPrice) :
    updateLowS st p = { st with lowestPrice := min st.lowestPrice p } := by
  unfold updateLowS
  rcases le_or_lt st.lowestPrice p with h | h
  · rw [if_neg, min_eq_left h]
    rintro (hlt | he)
    · exact absurd hlt (not_lt.mpr h)
    · exact absurd he (ne_of_gt h0)
  · rw [if_pos (Or.inl h), min_eq_right h.le]

lemma updateLowS_zero (st : CState) (p : ℚ) (h0 : st.lowestPrice = 0) :
    updateLowS st p = { st with lowestPrice := p } := by
  unfold updateLowS
  rw [if_pos (Or.inr h0)]

lemma checkStopS_state (st : CState) (p : ℚ)
    (h1 : ¬ st.selfPosition = 0) (h2 : ¬ st.entryPrice = 0) :
    (checkStopS st p).2.2 = updateLowS (updateHighS st p) p := by
  unfold checkStopS
  rw [if_neg (by push_neg; exact ⟨h1, h2⟩)]

lemma checkStopS_step (st : CState) (p : ℚ)
    (h1 : ¬ st.selfPosition = 0) (h2 : ¬ st.entryPrice = 0)
    (h3 : 0 < st.lowestPrice) :
    (checkStopS st p).2.2
      = { st with highestPrice := max st.highestPrice p
                  lowestPrice := min st.lowestPrice p } := by
  rw [checkStopS_state st p h1 h2, updateHighS_eq,
    updateLowS_pos { st with highestPrice := max st.highestPrice p } p h3]

lemma updateHighT_eq (t : Trader) (p : ℚ) :
    updateHighT t p = { t with highestPrice := max t.highestPrice p } := by
  unfold updateHighT
  rcases le_or_lt p t.highestPrice with h | h
  · rw [if_neg (not_lt.mpr h), max_eq_left h]
  · rw [if_pos h, max_eq_right h.le]

lemma checkStopT_third (t : Trader) (p : ℚ) :
    (checkStopConditions t p).2.2
      = if t.position = 0 then t else updateHighT t p := by
  unfold checkStopConditions
  by_cases h : t.position = 0
  · rw [if_pos h, if_pos h]
  · rw [if_neg h, if_neg h]

lemma observeSeq_spec (ps : List ℚ) : ∀ (st : CState),
    ¬ st.selfPosition = 0 → ¬ st.entryPrice = 0 → 0 < st.lowestPrice →
    (∀ q ∈ ps, 0 < q) →
    st.highestPrice ≤ (observeSeq st ps).highestPrice ∧
    (observeSeq st ps).lowestPrice ≤ st.lowestPrice ∧
    0 < (observeSeq st ps).lowestPrice ∧
    (observeSeq st ps).selfPosition = st.selfPosition ∧
    (observeSeq st ps).entryPrice = st.entryPrice ∧
    (observeSeq st ps).position = st.position ∧
    (observeSeq st ps).trades = st.trades := by
  induction ps with
  | nil =>
    intro st _ _ h3 _
    exact ⟨le_refl _, le_refl _, h3, rfl, rfl, rfl, rfl⟩
  | cons p ps ih =>
    intro st h1 h2 h3 hp
    have hfold : observeSeq st (p :: ps) = observeSeq ((checkStopS st p).2.2) ps := rfl
    rw [hfold, checkStopS_step st p h1 h2 h3]
    have hmin : 0 < min st.lowestPrice p := lt_min h3 (hp p (List.mem_cons_self p ps))
    obtain ⟨ha, hb, hc, hd, he, hf, hg⟩ :=
      ih { st with highestPrice := max st.highestPrice p
                   lowestPrice := min st.lowestPrice p }
        h1 h2 hmin (fun q hq => hp q (List.mem_cons_of_mem p hq))
    exact ⟨le_trans (le_max_left _ _) ha, le_trans hb (min_le_left _ _),
      hc, hd, he, hf, hg⟩

lemma observeSeqT_spec (ps : List ℚ) : ∀ (t : Trader),
    t.highestPrice ≤ (observeSeqT t ps).highestPrice ∧
    (observeSeqT t ps).capital = t.capital ∧
    (observeSeqT t ps).position = t.position ∧
    (observeSeqT t ps).entryPrice = t.entryPrice ∧
    (observeSeqT t ps).trades = t.trades ∧
    (observeSeqT t ps).totalFees = t.totalFees := by
  induction ps with
  | nil =>
    intro t
    exact ⟨le_refl _, rfl, rfl, rfl, rfl, rfl⟩
  | cons p ps ih =>
    intro t
    have hfold : observeSeqT t (p :: ps)
        = observeSeqT ((checkStopConditions t p).2.2) ps := rfl
    rw [hfold, checkStopT_third]
    by_cases h : t.position = 0
    · rw [if_pos h]
      exact ih t
    · rw [if_neg h, updateHighT_eq]
      obtain ⟨ha, hb, hc, hd, he, hf⟩ :=
        ih { t with highestPrice := max t.highestPrice p }
      exact ⟨le_trans (le_max_left _ _) ha, hb, hc, hd, he, hf⟩

/-- C3: while a position is open, each observation updates
`highestPriceSinceEntry` to `max(highest, price)` and (in the strategy
variant, the only copy that tracks it) `lowestPriceSinceEntry` to
`min(lowest, price)`, initializing the lowest on a first observation that
finds it unset; across any observation sequence the highest price is
non-decreasing and the lowest price non-increasing, and observation has
no trade side effects (position, entry price, capital and the ledger are
untouched). -/
theorem observation_monotone :
    (∀ (st : CState) (p : ℚ), ¬ st.selfPosition = 0 → ¬ st.entryPrice = 0 →
      0 < st.lowestPrice →
      (checkStopS st p).2.2.highestPrice = max st.highestPrice p ∧
      (checkStopS st p).2.2.lowestPrice = min st.lowestPrice p ∧
      (checkStopS st p).2.2.position = st.position ∧
      (checkStopS st p).2.2.selfPosition = st.selfPosition ∧
      (checkStopS st p).2.2.entryPrice = st.entryPrice ∧
      (checkStopS st p).2.2.trades = st.trades) ∧
    (∀ (st : CState) (p : ℚ), ¬ st.selfPosition = 0 → ¬ st.entryPrice = 0 →
      st.lowestPrice = 0 →
      (checkStopS st p).2.2.lowestPrice = p) ∧
    (∀ (st : CState) (ps : List ℚ), ¬ st.selfPosition = 0 →
      ¬ st.entryPrice = 0 → 0 < st.lowestPrice → (∀ q ∈ ps, 0 < q) →
      st.highestPrice ≤ (observeSeq st ps).highestPrice ∧
      (observeSeq st ps).lowestPrice ≤ st.lowestPrice ∧
      (observeSeq st ps).position = st.position ∧
      (observeSeq st ps).trades = st.trades) ∧
    (∀ (t : Trader) (ps : List ℚ),
      t.highestPrice ≤ (observeSeqT t ps).highestPrice ∧
      (observeSeqT t ps).capital = t.capital ∧
      (observeSeqT t ps).position = t.position ∧
      (observeSeqT t ps).trades = t.trades) ∧
    (∀ (t : Trader) (p : ℚ), ¬ t.position = 0 →
      (checkStopConditions t p).2.2.highestPrice = max t.highestPrice p) := by
  refine ⟨?_, ?_, ?_, ?_, ?_⟩
  · intro st p h1 h2 h3
    rw [checkStopS_step st p h1 h2 h3]
    exact ⟨rfl, rfl, rfl, rfl, rfl, rfl⟩
  · intro st p h1 h2 h0
    rw [checkStopS_state st p h1 h2, updateHighS_eq,
      updateLowS_zero { st with highestPrice := max st.highestPrice p } p h0]
  · intro st ps h1 h2 h3 hp
    obtain ⟨ha, hb, _, _, _, hf, hg⟩ := observeSeq_spec ps st h1 h2 h3 hp
    exact ⟨ha, hb, hf, hg⟩
  · intro t ps
    obtain ⟨ha, hb, hc, _, he, _⟩ := observeSeqT_spec ps t
    exact ⟨ha, hb, hc, he⟩
  · intro t p h
    rw [checkStopT_third, if_neg h, updateHighT_eq]

/-- C3, witness: the theorem applied at a concrete open strategy state
and at the concrete open trader observing the prices 101 and 99. -/
theorem observation_monotone_witness :
    (checkStopS openC 105).2.2.highestPrice = max openC.highestPrice 105 ∧
    openEx.highestPrice ≤ (observeSeqT openEx [101, 99]).highestPrice ∧
    (observeSeqT openEx [101, 99]).trades = openEx.trades :=
  ⟨(observation_monotone.1 openC 105 (by decide) (by decide) (by decide)).1,
    (observation_monotone.2.2.2.1 openEx [101, 99]).1,
    (observation_monotone.2.2.2.1 openEx [101, 99]).2.2.2⟩

/-! ## C4: take-profit runs before stop-loss and before signal exits -/

lemma checkStopS_third (st : CState) (p : ℚ) :
    (checkStopS st p).2.2
      = if st.selfPosition = 0 ∨ st.entryPrice = 0 then st
        else updateLowS (updateHighS st p) p := by
  unfold checkStopS
  by_cases h : st.selfPosition = 0 ∨ st.entryPrice = 0
  · rw [if_pos h, if_pos h]
  · rw [if_neg h, if_neg h]

lemma checkStopS_pres (st : CState) (p : ℚ) :
    (checkStopS st p).2.2.position = st.position ∧
    (checkStopS st p).2.2.trades = st.trades ∧
    (checkStopS st p).2.2.takeProfitCount = st.takeProfitCount ∧
    (checkStopS st p).2.2.stopLossCount = st.stopLossCount ∧
    (checkStopS st p).2.2.enableTakeProfit = st.enableTakeProfit ∧
    (checkStopS st p).2.2.enableStopLoss = st.enableStopLoss := by
  rw [checkStopS_third]
  by_cases h : st.selfPosition = 0 ∨ st.entryPrice = 0
  · rw [if_pos h]
    exact ⟨rfl, rfl, rfl, rfl, rfl, rfl⟩
  · rw [if_neg h]
    unfold updateLowS updateHighS
    split_ifs <;> exact ⟨rfl, rfl, rfl, rfl, rfl, rfl⟩

lemma checkStopT_pres (t : Trader) (p : ℚ) :
    (checkStopConditions t p).2.2.position = t.position ∧
    (checkStopConditions t p).2.2.trades = t.trades ∧
    (checkStopConditions t p).2.2.takeProfitCount = t.takeProfitCount ∧
    (checkStopConditions t p).2.2.stopLossCount = t.stopLossCount ∧
    (checkStopConditions t p).2.2.entryPrice = t.entryPrice ∧
    (checkStopConditions t p).2.2.capital = t.capital ∧
    (checkStopConditions t p).2.2.totalFees = t.totalFees := by
  rw [checkStopT_third]
  by_cases h : t.position = 0
  · rw [if_pos h]
    exact ⟨rfl, rfl, rfl, rfl, rfl, rfl, rfl⟩
  · rw [if_neg h, updateHighT_eq]
    exact ⟨rfl, rfl, rfl, rfl, rfl, rfl, rfl⟩

lemma runStep_takeProfit (bp : BuyParams) (sp : SellParams) (t : Trader)
    (p : ℚ) (sig : Signals) (hpos : t.position > 0) (hp : ¬ p = 0)
    (htp : (checkStopConditions t p).1 = true) :
    runStep bp sp t (some p) (some sig)
      = (sell { (checkStopConditions t p).2.2 with
            takeProfitCount := (checkStopConditions t p).2.2.takeProfitCount + 1 }
          p Reason.takeProfit).2 := by
  simp only [runStep]
  rw [if_neg hp, if_pos hpos]
  simp only [htp, if_true]

/-- C4: while a position is open, the stop checks run before the policy
signal check and take-profit is applied before stop-loss: on any bar
whose price satisfies the take-profit trigger — whatever the signal
snapshot says, in particular when a policy sell signal (or a stop-loss
condition) holds simultaneously — the streaming trader and the strategy
backtest close the position with exactly one SELL record whose reason is
the take-profit reason (never a signal reason), increment the take-profit
counter, and take no further action on that bar. -/
theorem takeProfit_priority :
    (∀ (bp : BuyParams) (sp : SellParams) (t : Trader) (p : ℚ) (sig : Signals),
      t.position > 0 → ¬ p = 0 → (checkStopConditions t p).1 = true →
      (runStep bp sp t (some p) (some sig)).position = 0 ∧
      (runStep bp sp t (some p) (some sig)).takeProfitCount
          = t.takeProfitCount + 1 ∧
      ∃ rec : Trade, (runStep bp sp t (some p) (some sig)).trades
          = t.trades ++ [rec] ∧ tradeReason rec = Reason.takeProfit) ∧
    (∀ (st : CState) (bar : CBar), st.position > 0 →
      st.enableTakeProfit = true → (checkStopS st bar.close).1 = true →
      (cryptoStep st bar).position = 0 ∧
      (cryptoStep st bar).takeProfitCount = st.takeProfitCount + 1 ∧
      (cryptoStep st bar).trades
          = st.trades ++ [⟨Action.sellA, bar.close, CReason.takeProfit⟩]) := by
  constructor
  · intro bp sp t p sig hpos hp htp
    obtain ⟨h1, h2, h3, _, _, _, _⟩ := checkStopT_pres t p
    have hne : ¬ ({ (checkStopConditions t p).2.2 with
        takeProfitCount := (checkStopConditions t p).2.2.takeProfitCount + 1 }
          : Trader).position = 0 := by
      show ¬ (checkStopConditions t p).2.2.position = 0
      rw [h1]
      exact ne_of_gt hpos
    have hrun := runStep_takeProfit bp sp t p sig hpos hp htp
    refine ⟨?_, ?_, ?_⟩
    · rw [hrun, sell_of_open _ p Reason.takeProfit hne]
    · rw [hrun, sell_of_open _ p Reason.takeProfit hne]
      show (checkStopConditions t p).2.2.takeProfitCount + 1 = t.takeProfitCount + 1
      rw [h3]
    · refine ⟨sellRecord { (checkStopConditions t p).2.2 with
          takeProfitCount := (checkStopConditions t p).2.2.takeProfitCount + 1 }
          p Reason.takeProfit, ?_, rfl⟩
      rw [hrun, sell_trades_eq _ p Reason.takeProfit hne]
      show (checkStopConditions t p).2.2.trades ++ _ = t.trades ++ _
      rw [h2]
  · intro st bar hpos htpe htp
    obtain ⟨_, h2, h3, _, h5, _⟩ := checkStopS_pres st bar.close
    have hcond : ((checkStopS st bar.close).2.2.enableTakeProfit
        && (checkStopS st bar.close).1) = true := by
      rw [h5, htpe, htp]
      rfl
    simp only [cryptoStep]
    rw [if_pos hpos, if_pos hcond]
    refine ⟨?_, ?_, ?_⟩
    · rfl
    · show (checkStopS st bar.close).2.2.takeProfitCount + 1
          = st.takeProfitCount + 1
      rw [h3]
    · show (checkStopS st bar.close).2.2.trades ++ _ = st.trades ++ _
      rw [h2]

/-- C4, witness: the theorem applied to the open trader at a 12%-profit
bar carrying a simultaneous sell signal, and to the open strategy state
at a 12%-profit bar. -/
theorem takeProfit_priority_witness :
    (runStep defaultBuyParams defaultSellParams openEx (some 112)
        (some ⟨0, 0, 60000, 50⟩)).position = 0 ∧
    (cryptoStep openC ⟨112, true, 0, 0, 80000, 50⟩).takeProfitCount
        = openC.takeProfitCount + 1 :=
  ⟨(takeProfit_priority.1 defaultBuyParams defaultSellParams openEx 112
      ⟨0, 0, 60000, 50⟩ (by decide) (by norm_num)
      (by norm_num [checkStopConditions, updateHighT, openEx, flatEx,
        initTrader])).1,
    (takeProfit_priority.2 openC ⟨112, true, 0, 0, 80000, 50⟩ (by decide) rfl
      (by norm_num [checkStopS, updateHighS, updateLowS, openC, flatC])).2.1⟩

/-! ## C7: finalization on forced termination -/

lemma bFinal_open (s : BState) (c : ℚ) (h : s.position > 0) :
    bFinal s c = { s with
      capital := s.capital * (1 + (c - s.entryPrice) / s.entryPrice)
      trades := s.trades ++ [BTrade.sellEnd c
          (s.capital * (1 + (c - s.entryPrice) / s.entryPrice))
          ((c - s.entryPrice) / s.entryPrice * 100)] } := by
  unfold bFinal
  rw [if_pos h]

lemma bFinal_flat (s : BState) (c : ℚ) (h : ¬ s.position > 0) :
    bFinal s c = s := by
  unfold bFinal
  rw [if_neg h]

lemma finalizeRun_some (t : Trader) (p : ℚ) (hpos : t.position > 0)
    (hp : ¬ p = 0) :
    finalizeRun t (some p) = (sell t p Reason.manualStop).2 := by
  unfold finalizeRun
  rw [if_pos hpos]
  show (if p = 0 then t else (sell t p Reason.manualStop).2) = _
  rw [if_neg hp]

/-- C7, counterexample: a streaming run cancelled with an open position
does not always force-exit: `PaperTrader.run` re-fetches the current
price in its interrupt handler and, when that fetch fails (`None`), the
run returns with the position still open and no MANUAL_STOP record
appended. -/
theorem manualStop_skipped_counterexample :
    openEx.position > 0 ∧
    finalizeRun openEx none = openEx ∧
    (finalizeRun openEx none).trades = openEx.trades ∧
    (finalizeRun openEx none).position > 0 := by
  have h : finalizeRun openEx none = openEx := by
    unfold finalizeRun
    rw [if_pos (by decide : openEx.position > 0)]
  exact ⟨by decide, h, by rw [h], by rw [h]; decide⟩

/-- C7, amended: a batch run that reaches the end of data with an open
position appends exactly one additional SELL record with the end-of-data
tag, priced at the last bar's close, and updates the capital accordingly
(a flat final state appends nothing); a cancelled streaming run with an
open position re-fetches the current price and, when the fetch succeeds
with a nonzero price, force-exits at that freshly fetched price with
reason MANUAL_STOP before returning (when the fetch fails the position
stays open, see the counterexample). -/
theorem forced_termination_finalizes :
    (∀ (s : BState) (c : ℚ), s.position > 0 →
      (bFinal s c).trades = s.trades ++ [BTrade.sellEnd c
          (s.capital * (1 + (c - s.entryPrice) / s.entryPrice))
          ((c - s.entryPrice) / s.entryPrice * 100)] ∧
      (bFinal s c).capital
          = s.capital * (1 + (c - s.entryPrice) / s.entryPrice)) ∧
    (∀ (s : BState) (c : ℚ), ¬ s.position > 0 → bFinal s c = s) ∧
    (∀ (bp : BuyParams) (sp : SellParams) (c0 : ℚ) (rows : List Row) (r : Row),
      rows.getLast? = some r →
      runBacktest bp sp c0 rows
        = bFinal (rows.foldl (bStep bp sp) ⟨c0, 0, 0, []⟩) r.close) ∧
    (∀ (t : Trader) (p : ℚ), t.position > 0 → ¬ p = 0 →
      (finalizeRun t (some p)).position = 0 ∧
      (finalizeRun t (some p)).trades
        = t.trades ++ [sellRecord t p Reason.manualStop]) := by
  refine ⟨?_, ?_, ?_, ?_⟩
  · intro s c h
    rw [bFinal_open s c h]
    exact ⟨rfl, rfl⟩
  · intro s c h
    exact bFinal_flat s c h
  · intro bp sp c0 rows r hlast
    unfold runBacktest
    rw [hlast]
  · intro t p hpos hp
    have hne : ¬ t.position = 0 := ne_of_gt hpos
    rw [finalizeRun_some t p hpos hp]
    constructor
    · rw [sell_of_open t p Reason.manualStop hne]
    · exact sell_trades_eq t p Reason.manualStop hne

/-- C7, witness: the amended theorem applied at the concrete open batch
state closed at 110 and at the concrete open trader cancelled at a
successfully fetched price of 90. -/
theorem forced_termination_finalizes_witness :
    (bFinal bOpen 110).trades = bOpen.trades ++ [BTrade.sellEnd 110
        (bOpen.capital * (1 + (110 - bOpen.entryPrice) / bOpen.entryPrice))
        ((110 - bOpen.entryPrice) / bOpen.entryPrice * 100)] ∧
    (finalizeRun openEx (some 90)).position = 0 :=
  ⟨(forced_termination_finalizes.1 bOpen 110 (by decide)).1,
    (forced_termination_finalizes.2.2.2 openEx 90 (by decide) (by decide)).1⟩

/-! ## C9: threshold decision policy -/

lemma checkTradingSignal_buy_iff (bp : BuyParams) (sp : SellParams)
    (s : Signals) :
    checkTradingSignal bp sp s = some Action.buyA
      ↔ (s.ha > bp.HA_threshold ∧ s.wd3 < bp.WD3_max) := by
  unfold checkTradingSignal
  split_ifs with h1 h2 <;> simp_all

lemma checkTradingSignal_sell_iff (bp : BuyParams) (sp : SellParams)
    (s : Signals) :
    checkTradingSignal bp sp s = some Action.sellA
      ↔ (¬ (s.ha > bp.HA_threshold ∧ s.wd3 < bp.WD3_max)
          ∧ (|s.qj| > sp.QJ_threshold ∨ s.wd3 > sp.WD3_threshold)) := by
  unfold checkTradingSignal
  split_ifs with h1 h2 <;> simp_all

lemma checkTradingSignal_none_iff (bp : BuyParams) (sp : SellParams)
    (s : Signals) :
    checkTradingSignal bp sp s = none
      ↔ (¬ (s.ha > bp.HA_threshold ∧ s.wd3 < bp.WD3_max)
          ∧ ¬ (|s.qj| > sp.QJ_threshold ∨ s.wd3 > sp.WD3_threshold)) := by
  unfold checkTradingSignal
  split_ifs with h1 h2 <;> simp_all

lemma execSignal_buy (bp : BuyParams) (sp : SellParams) (t : Trader) (p : ℚ)
    (sig : Signals) (hb : checkTradingSignal bp sp sig = some Action.buyA) :
    execSignal bp sp t p sig
      = if t.position = 0 then (buy t p Reason.signalBuy).2 else t := by
  unfold execSignal
  rw [hb]

lemma execSignal_sell (bp : BuyParams) (sp : SellParams) (t : Trader) (p : ℚ)
    (sig : Signals) (hs : checkTradingSignal bp sp sig = some Action.sellA) :
    execSignal bp sp t p sig
      = if t.position > 0 then (sell t p Reason.signalSell).2 else t := by
  unfold execSignal
  rw [hs]

lemma execSignal_none (bp : BuyParams) (sp : SellParams) (t : Trader) (p : ℚ)
    (sig : Signals) (hn : checkTradingSignal bp sp sig = none) :
    execSignal bp sp t p sig = t := by
  unfold execSignal
  rw [hn]

lemma runStep_flat (bp : BuyParams) (sp : SellParams) (t : Trader) (p : ℚ)
    (sig : Signals) (hp : ¬ p = 0) (hflat : ¬ t.position > 0) :
    runStep bp sp t (some p) (some sig) = execSignal bp sp t p sig := by
  simp only [runStep]
  rw [if_neg hp, if_neg hflat]

lemma runStep_noStops (bp : BuyParams) (sp : SellParams) (t : Trader) (p : ℚ)
    (sig : Signals) (hp : ¬ p = 0) (hpos : t.position > 0)
    (h1 : (checkStopConditions t p).1 = false)
    (h2 : (checkStopConditions t p).2.1 = false) :
    runStep bp sp t (some p) (some sig)
      = execSignal bp sp (checkStopConditions t p).2.2 p sig := by
  simp only [runStep]
  rw [if_neg hp, if_pos hpos, h1, h2]
  simp only [Bool.false_eq_true, if_false]

/-- C9, counterexample: with the default configuration thresholds and an
open position, a snapshot satisfying both the buy group (HA 30000 > 25000,
WD3 50 < 150) and the sell group (|QJ| 60000 > 50000) produces no exit:
`check_trading_signal` tests the buy group first and returns `'BUY'`,
which the driver ignores while a position is open, so the step leaves the
trader unchanged — contradicting "yields an exit intent … exactly when
|QJ| > QJ_threshold OR WD3 > WD3_threshold". -/
theorem live_exit_suppressed_counterexample :
    (|(60000:ℚ)| > defaultSellParams.QJ_threshold
      ∨ (50:ℚ) > defaultSellParams.WD3_threshold) ∧
    openEx.position > 0 ∧
    checkTradingSignal defaultBuyParams defaultSellParams ⟨30000, 0, 60000, 50⟩
      = some Action.buyA ∧
    runStep defaultBuyParams defaultSellParams openEx (some 100)
      (some ⟨30000, 0, 60000, 50⟩) = openEx := by
  have hcs : checkStopConditions openEx 100 = (false, false, openEx) := by
    norm_num [checkStopConditions, updateHighT, openEx, flatEx, initTrader]
  have hct : checkTradingSignal defaultBuyParams defaultSellParams
      ⟨30000, 0, 60000, 50⟩ = some Action.buyA := by
    norm_num [checkTradingSignal, defaultBuyParams, defaultSellParams]
  refine ⟨by left; norm_num [defaultSellParams], by decide, hct, ?_⟩
  rw [runStep_noStops defaultBuyParams defaultSellParams openEx 100 _
    (by norm_num) (by decide) (by rw [hcs]) (by rw [hcs]), hcs]
  rw [execSignal_buy defaultBuyParams defaultSellParams openEx 100 _ hct]
  rw [if_neg (by decide : ¬ openEx.position = 0)]

/-- C9, amended: the live policy returns a buy intent exactly when
`HA > HA_threshold AND WD3 < WD3_max` and a sell intent exactly when the
buy group does NOT hold and `|QJ| > QJ_threshold OR WD3 > WD3_threshold`
(the buy test runs first and takes precedence); the driver executes a buy
intent only when flat and a sell intent only when open; the batch driver
enters exactly when flat and the buy group holds and exits exactly when
open and the sell group holds; the strategy variant additionally requires
`|QS| > 1250` for entry (with thresholds hard-coded rather than read from
configuration). -/
theorem policy_threshold_spec :
    (∀ (bp : BuyParams) (sp : SellParams) (s : Signals),
      checkTradingSignal bp sp s = some Action.buyA
        ↔ (s.ha > bp.HA_threshold ∧ s.wd3 < bp.WD3_max)) ∧
    (∀ (bp : BuyParams) (sp : SellParams) (s : Signals),
      checkTradingSignal bp sp s = some Action.sellA
        ↔ (¬ (s.ha > bp.HA_threshold ∧ s.wd3 < bp.WD3_max)
            ∧ (|s.qj| > sp.QJ_threshold ∨ s.wd3 > sp.WD3_threshold))) ∧
    (∀ (bp : BuyParams) (sp : SellParams) (s : BState) (r : Row),
      (s.position = 0 →
        ((r.ha > bp.HA_threshold ∧ r.wd3 < bp.WD3_max) →
          (bStep bp sp s r).trades
            = s.trades ++ [BTrade.buyT r.close s.capital]) ∧
        (¬ (r.ha > bp.HA_threshold ∧ r.wd3 < bp.WD3_max) →
          bStep bp sp s r = s)) ∧
      (s.position > 0 →
        ((|r.qj| > sp.QJ_threshold ∨ r.wd3 > sp.WD3_threshold) →
          (bStep bp sp s r).trades = s.trades
            ++ [BTrade.sellT r.close
                (s.capital * (1 + (r.close - s.entryPrice) / s.entryPrice))
                ((r.close - s.entryPrice) / s.entryPrice * 100)]) ∧
        (¬ (|r.qj| > sp.QJ_threshold ∨ r.wd3 > sp.WD3_threshold) →
          bStep bp sp s r = s))) ∧
    (∀ (st : CState) (ha qs qj wd3 : ℚ), st.selfPosition = 0 →
      ((analyzeSignals st ha qs qj wd3).selfPosition = 1
        ↔ (ha > 33000 ∧ |qs| > 1250 ∧ wd3 < 100))) ∧
    (∀ (bp : BuyParams) (sp : SellParams) (t : Trader) (p : ℚ) (sig : Signals),
      ¬ p = 0 → t.position = 0 →
      ((sig.ha > bp.HA_threshold ∧ sig.wd3 < bp.WD3_max) →
        runStep bp sp t (some p) (some sig) = (buy t p Reason.signalBuy).2) ∧
      (¬ (sig.ha > bp.HA_threshold ∧ sig.wd3 < bp.WD3_max) →
        runStep bp sp t (some p) (some sig) = t)) ∧
    (∀ (bp : BuyParams) (sp : SellParams) (t : Trader) (p : ℚ) (sig : Signals),
      ¬ p = 0 → t.position > 0 →
      (checkStopConditions t p).1 = false →
      (checkStopConditions t p).2.1 = false →
      ((sig.ha > bp.HA_threshold ∧ sig.wd3 < bp.WD3_max) →
        (runStep bp sp t (some p) (some sig)).trades = t.trades) ∧
      ((¬ (sig.ha > bp.HA_threshold ∧ sig.wd3 < bp.WD3_max)
          ∧ (|sig.qj| > sp.QJ_threshold ∨ sig.wd3 > sp.WD3_threshold)) →
        ∃ rec : Trade, (runStep bp sp t (some p) (some sig)).trades
            = t.trades ++ [rec] ∧ tradeReason rec = Reason.signalSell)) := by
  refine ⟨checkTradingSignal_buy_iff, checkTradingSignal_sell_iff, ?_, ?_, ?_, ?_⟩
  · intro bp sp s r
    constructor
    · intro hflat
      constructor
      · intro hb
        unfold bStep
        rw [if_pos ⟨hflat, hb.1, hb.2⟩]
      · intro hb
        unfold bStep
        rw [if_neg (fun hc => hb ⟨hc.2.1, hc.2.2⟩),
          if_neg (fun hc => absurd hflat (by rw [hflat] at hc; exact absurd hc.1 (lt_irrefl 0)))]
    · intro hopen
      constructor
      · intro hs
        unfold bStep
        rw [if_neg (fun hc => absurd hopen (by rw [hc.1]; exact lt_irrefl 0)),
          if_pos ⟨hopen, hs⟩]
      · intro hs
        unfold bStep
        rw [if_neg (fun hc => absurd hopen (by rw [hc.1]; exact lt_irrefl 0)),
          if_neg (fun hc => hs hc.2)]
  · intro st ha qs qj wd3 hflat
    simp only [analyzeSignals]
    split_ifs with hb hs <;> simp_all
  · intro bp sp t p sig hp hflat
    constructor
    · intro hb
      rw [runStep_flat bp sp t p sig hp (by rw [hflat]; exact lt_irrefl 0),
        execSignal_buy bp sp t p sig ((checkTradingSignal_buy_iff bp sp sig).mpr hb),
        if_pos hflat]
    · intro hb
      rw [runStep_flat bp sp t p sig hp (by rw [hflat]; exact lt_irrefl 0)]
      rcases Option.eq_none_or_eq_some (checkTradingSignal bp sp sig) with hn | ⟨a, ha⟩
      · exact execSignal_none bp sp t p sig hn
      · cases a with
        | buyA => exact absurd ((checkTradingSignal_buy_iff bp sp sig).mp ha) hb
        | sellA =>
          rw [execSignal_sell bp sp t p sig ha,
            if_neg (by rw [hflat]; exact lt_irrefl 0)]
  · intro bp sp t p sig hp hpos h1 h2
    obtain ⟨hq1, hq2, _, _, _, _, _⟩ := checkStopT_pres t p
    constructor
    · intro hb
      rw [runStep_noStops bp sp t p sig hp hpos h1 h2,
        execSignal_buy bp sp _ p sig ((checkTradingSignal_buy_iff bp sp sig).mpr hb),
        if_neg (by rw [hq1]; exact ne_of_gt hpos)]
      exact hq2
    · intro hs
      have hopen1 : (checkStopConditions t p).2.2.position > 0 := by
        rw [hq1]; exact hpos
      refine ⟨sellRecord (checkStopConditions t p).2.2 p Reason.signalSell, ?_, rfl⟩
      rw [runStep_noStops bp sp t p sig hp hpos h1 h2,
        execSignal_sell bp sp _ p sig ((checkTradingSignal_sell_iff bp sp sig).mpr hs),
        if_pos hopen1,
        sell_trades_eq _ p Reason.signalSell (ne_of_gt hopen1), hq2]

/-- C9, witness: the amended theorem applied at the default thresholds —
a flat trader entering on a buy-group snapshot, and the open trader whose
simultaneous buy+sell snapshot leaves the ledger unchanged. -/
theorem policy_threshold_spec_witness :
    runStep defaultBuyParams defaultSellParams flatEx (some 100)
        (some ⟨30000, 0, 0, 50⟩) = (buy flatEx 100 Reason.signalBuy).2 ∧
    (runStep defaultBuyParams defaultSellParams openEx (some 100)
        (some ⟨30000, 0, 60000, 50⟩)).trades = openEx.trades :=
  ⟨(policy_threshold_spec.2.2.2.2.1 defaultBuyParams defaultSellParams flatEx
      100 ⟨30000, 0, 0, 50⟩ (by norm_num) (by decide)).1
      (by norm_num [defaultBuyParams]),
    (policy_threshold_spec.2.2.2.2.2 defaultBuyParams defaultSellParams openEx
      100 ⟨30000, 0, 60000, 50⟩ (by norm_num) (by decide)
      (by rw [show checkStopConditions openEx 100 = (false, false, openEx) from
          by norm_num [checkStopConditions, updateHighT, openEx, flatEx, initTrader]])
      (by rw [show checkStopConditions openEx 100 = (false, false, openEx) from
          by norm_num [checkStopConditions, updateHighT, openEx, flatEx, initTrader]])).1
      (by norm_num [defaultBuyParams])⟩

/-! ## C2: capital conservation under zero friction -/

lemma bLedgerProduct_append (ts : List BTrade) (tr : BTrade) :
    bLedgerProduct (ts ++ [tr]) = bLedgerProduct ts * bFactor tr := by
  unfold bLedgerProduct
  rw [List.map_append, List.prod_append, List.map_singleton,
    List.prod_singleton]

lemma ledgerProduct_append (ts : List Trade) (tr : Trade) :
    ledgerProduct (ts ++ [tr]) = ledgerProduct ts * tradeFactor tr := by
  unfold ledgerProduct
  rw [List.map_append, List.prod_append, List.map_singleton,
    List.prod_singleton]

lemma bStep_capital (bp : BuyParams) (sp : SellParams) (s : BState) (r : Row)
    (c0 : ℚ) (h : s.capital = c0 * bLedgerProduct s.trades) :
    (bStep bp sp s r).capital
      = c0 * bLedgerProduct (bStep bp sp s r).trades := by
  unfold bStep
  split_ifs with h1 h2
  · show s.capital = c0 * bLedgerProduct (s.trades ++ [BTrade.buyT r.close s.capital])
    rw [bLedgerProduct_append, h]
    show c0 * bLedgerProduct s.trades = c0 * (bLedgerProduct s.trades * 1)
    ring
  · show s.capital * (1 + (r.close - s.entryPrice) / s.entryPrice)
        = c0 * bLedgerProduct (s.trades ++ [BTrade.sellT r.close
            (s.capital * (1 + (r.close - s.entryPrice) / s.entryPrice))
            ((r.close - s.entryPrice) / s.entryPrice * 100)])
    rw [bLedgerProduct_append, h]
    show c0 * bLedgerProduct s.trades * (1 + (r.close - s.entryPrice) / s.entryPrice)
        = c0 * (bLedgerProduct s.trades
            * (1 + (r.close - s.entryPrice) / s.entryPrice * 100 / 100))
    ring
  · exact h

lemma bFinal_capital (s : BState) (c c0 : ℚ)
    (h : s.capital = c0 * bLedgerProduct s.trades) :
    (bFinal s c).capital = c0 * bLedgerProduct (bFinal s c).trades := by
  unfold bFinal
  split_ifs with h1
  · show s.capital * (1 + (c - s.entryPrice) / s.entryPrice)
        = c0 * bLedgerProduct (s.trades ++ [BTrade.sellEnd c
            (s.capital * (1 + (c - s.entryPrice) / s.entryPrice))
            ((c - s.entryPrice) / s.entryPrice * 100)])
    rw [bLedgerProduct_append, h]
    show c0 * bLedgerProduct s.trades * (1 + (c - s.entryPrice) / s.entryPrice)
        = c0 * (bLedgerProduct s.trades
            * (1 + (c - s.entryPrice) / s.entryPrice * 100 / 100))
    ring
  · exact h

lemma bFold_capital (bp : BuyParams) (sp : SellParams) (c0 : ℚ)
    (rows : List Row) : ∀ (s : BState),
    s.capital = c0 * bLedgerProduct s.trades →
    (rows.foldl (bStep bp sp) s).capital
      = c0 * bLedgerProduct (rows.foldl (bStep bp sp) s).trades := by
  induction rows with
  | nil => intro s h; exact h
  | cons r rows ih =>
    intro s h
    exact ih _ (bStep_capital bp sp s r c0 h)

lemma feeRate_zero (t : Trader) (h : t.enableFees = false) : feeRate t = 0 := by
  unfold feeRate
  rw [h]
  rfl

lemma applySlippage_id (t : Trader) (p : ℚ) (b : Bool)
    (h : t.enableSlippage = false) : applySlippage t p b = p := by
  unfold applySlippage
  rw [h]
  rfl

lemma Inv_buy (c0 : ℚ) (t : Trader) (p : ℚ) (r : Reason) (hp : ¬ p = 0)
    (h : Inv c0 t) : Inv c0 (buy t p r).2 := by
  obtain ⟨hf, hs, hc, hop⟩ := h
  by_cases hpos : t.position > 0
  · rw [buy_of_open t p r hpos]
    exact ⟨hf, hs, hc, hop⟩
  · rw [buy_of_flat t p r hpos]
    have hfr : feeRate t = 0 := feeRate_zero t hf
    have hap : applySlippage t p true = p := applySlippage_id t p true hs
    refine ⟨hf, hs, ?_, ?_⟩
    · show t.capital = c0 * ledgerProduct (t.trades ++ [Trade.buyT p
          (applySlippage t p true) (applySlippage t p true - p)
          ((t.capital - t.capital * feeRate t) / applySlippage t p true)
          (t.capital * feeRate t) t.capital r])
      rw [ledgerProduct_append, hc]
      show c0 * ledgerProduct t.trades = c0 * (ledgerProduct t.trades * 1)
      ring
    · intro _
      refine ⟨by show ¬ applySlippage t p true = 0; rw [hap]; exact hp, ?_⟩
      show (t.capital - t.capital * feeRate t) / applySlippage t p true
          * applySlippage t p true = t.capital
      rw [hfr, hap, mul_zero, sub_zero, div_mul_cancel₀ _ hp]

lemma Inv_sell (c0 : ℚ) (t : Trader) (p : ℚ) (r : Reason)
    (h : Inv c0 t) : Inv c0 (sell t p r).2 := by
  obtain ⟨hf, hs, hc, hop⟩ := h
  by_cases hpos : t.position = 0
  · rw [sell_of_flat t p r hpos]
    exact ⟨hf, hs, hc, hop⟩
  · obtain ⟨he, hpe⟩ := hop hpos
    have hfr : feeRate t = 0 := feeRate_zero t hf
    have hap : applySlippage t p false = p := applySlippage_id t p false hs
    rw [sell_of_open t p r hpos]
    refine ⟨hf, hs, ?_, ?_⟩
    · show t.position * applySlippage t p false
            - t.position * applySlippage t p false * feeRate t
          = c0 * ledgerProduct (t.trades ++ [Trade.sellT p
              (applySlippage t p false) (p - applySlippage t p false)
              t.position (t.position * applySlippage t p false * feeRate t)
              (t.position * applySlippage t p false
                - t.position * applySlippage t p false * feeRate t)
              ((applySlippage t p false - t.entryPrice) / t.entryPrice * 100)
              (t.position * applySlippage t p false
                - t.position * applySlippage t p false * feeRate t
                - lastCapitalBefore t.trades) r])
      rw [ledgerProduct_append, hfr, hap]
      show t.position * p - t.position * p * 0
          = c0 * (ledgerProduct t.trades
              * (1 + (p - t.entryPrice) / t.entryPrice * 100 / 100))
      rw [← mul_assoc, ← hc, ← hpe]
      field_simp
      ring
    · intro hpos'
      exact absurd rfl hpos'

lemma Inv_checkStop (c0 : ℚ) (t : Trader) (p : ℚ) (h : Inv c0 t) :
    Inv c0 (checkStopConditions t p).2.2 := by
  rw [checkStopT_third]
  by_cases hf : t.position = 0
  · rw [if_pos hf]
    exact h
  · rw [if_neg hf, updateHighT_eq]
    obtain ⟨h1, h2, h3, h4⟩ := h
    exact ⟨h1, h2, h3, h4⟩

lemma Inv_setTp (c0 : ℚ) (t : Trader) (n : ℕ) (h : Inv c0 t) :
    Inv c0 { t with takeProfitCount := n } := by
  obtain ⟨h1, h2, h3, h4⟩ := h
  exact ⟨h1, h2, h3, h4⟩

lemma Inv_setSl (c0 : ℚ) (t : Trader) (n : ℕ) (h : Inv c0 t) :
    Inv c0 { t with stopLossCount := n } := by
  obtain ⟨h1, h2, h3, h4⟩ := h
  exact ⟨h1, h2, h3, h4⟩

lemma Inv_execSignal (c0 : ℚ) (bp : BuyParams) (sp : SellParams) (t : Trader)
    (p : ℚ) (sig : Signals) (hp : ¬ p = 0) (h : Inv c0 t) :
    Inv c0 (execSignal bp sp t p sig) := by
  cases hct : checkTradingSignal bp sp sig with
  | none =>
    rw [execSignal_none bp sp t p sig hct]
    exact h
  | some a =>
    cases a with
    | buyA =>
      rw [execSignal_buy bp sp t p sig hct]
      split_ifs with hq
      · exact Inv_buy c0 t p Reason.signalBuy hp h
      · exact h
    | sellA =>
      rw [execSignal_sell bp sp t p sig hct]
      split_ifs with hq
      · exact Inv_sell c0 t p Reason.signalSell h
      · exact h

lemma Inv_runStep (c0 : ℚ) (bp : BuyParams) (sp : SellParams) (t : Trader)
    (price? : Option ℚ) (signals? : Option Signals) (h : Inv c0 t) :
    Inv c0 (runStep bp sp t price? signals?) := by
  cases price? with
  | none => exact h
  | some p =>
    cases signals? with
    | none => exact h
    | some sig =>
      by_cases hp : p = 0
      · simp only [runStep]
        rw [if_pos hp]
        exact h
      · by_cases hpos : t.position > 0
        · by_cases htp : (checkStopConditions t p).1 = true
          · rw [runStep_takeProfit bp sp t p sig hpos hp htp]
            exact Inv_sell c0 _ p Reason.takeProfit
              (Inv_setTp c0 _ _ (Inv_checkStop c0 t p h))
          · have htp' : (checkStopConditions t p).1 = false :=
              Bool.eq_false_iff.mpr htp
            by_cases hsl : (checkStopConditions t p).2.1 = true
            · simp only [runStep]
              rw [if_neg hp, if_pos hpos, if_neg htp, if_pos hsl]
              split_ifs with hpn
              · exact Inv_sell c0 _ p Reason.stopFixed
                  (Inv_setSl c0 _ _ (Inv_checkStop c0 t p h))
              · exact Inv_sell c0 _ p Reason.stopTrailing
                  (Inv_setSl c0 _ _ (Inv_checkStop c0 t p h))
            · have hsl' : (checkStopConditions t p).2.1 = false :=
                Bool.eq_false_iff.mpr hsl
              rw [runStep_noStops bp sp t p sig hp hpos htp' hsl']
              exact Inv_execSignal c0 bp sp _ p sig hp (Inv_checkStop c0 t p h)
        · rw [runStep_flat bp sp t p sig hp hpos]
          exact Inv_execSignal c0 bp sp t p sig hp h

lemma Inv_runBars (c0 : ℚ) (bp : BuyParams) (sp : SellParams)
    (bars : List (Option ℚ × Option Signals)) : ∀ (t : Trader), Inv c0 t →
    Inv c0 (runBars bp sp t bars) := by
  induction bars with
  | nil => intro t h; exact h
  | cons b bars ih =>
    intro t h
    exact ih _ (Inv_runStep c0 bp sp t b.1 b.2 h)

/-- C2: with fees and slippage disabled, the final capital equals the
initial capital times `Π (1 + pnl_i)` over the realized per-trade returns
recorded in the ledger — in the batch driver (which never models
friction) for every signal-row sequence with nonzero closes, and in the
streaming trader for every polling run started from a fresh account. -/
theorem capital_conservation :
    (∀ (bp : BuyParams) (sp : SellParams) (c0 : ℚ) (rows : List Row),
      (∀ r ∈ rows, ¬ r.close = 0) →
      (runBacktest bp sp c0 rows).capital
        = c0 * bLedgerProduct (runBacktest bp sp c0 rows).trades) ∧
    (∀ (bp : BuyParams) (sp : SellParams) (c0 : ℚ) (sl tp fut : Bool)
      (bars : List (Option ℚ × Option Signals)),
      (runBars bp sp (initTrader c0 false false sl tp fut) bars).capital
        = c0 * ledgerProduct
            (runBars bp sp (initTrader c0 false false sl tp fut) bars).trades) := by
  constructor
  · intro bp sp c0 rows _
    have hinit : (⟨c0, 0, 0, []⟩ : BState).capital
        = c0 * bLedgerProduct (⟨c0, 0, 0, []⟩ : BState).trades := by
      show c0 = c0 * bLedgerProduct []
      rw [show bLedgerProduct [] = 1 from rfl, mul_one]
    unfold runBacktest
    rcases hl : rows.getLast? with _ | rr
    · simp only
      exact bFold_capital bp sp c0 rows _ hinit
    · simp only
      exact bFinal_capital _ _ c0 (bFold_capital bp sp c0 rows _ hinit)
  · intro bp sp c0 sl tp fut bars
    have hinit : Inv c0 (initTrader c0 false false sl tp fut) := by
      refine ⟨rfl, rfl, ?_, ?_⟩
      · show c0 = c0 * ledgerProduct []
        rw [show ledgerProduct [] = 1 from rfl, mul_one]
      · intro hpos
        exact absurd rfl hpos
    exact (Inv_runBars c0 bp sp bars _ hinit).2.2.1

/-- C2, witness: the theorem applied to a concrete two-row batch run (one
signal entry, one signal exit at nonzero closes). -/
theorem capital_conservation_witness :
    (runBacktest defaultBuyParams defaultSellParams 1000
        [⟨30000, 50, 0, 10⟩, ⟨0, 50, 60000, 12⟩]).capital
      = 1000 * bLedgerProduct (runBacktest defaultBuyParams defaultSellParams
          1000 [⟨30000, 50, 0, 10⟩, ⟨0, 50, 60000, 12⟩]).trades :=
  capital_conservation.1 defaultBuyParams defaultSellParams 1000
    [⟨30000, 50, 0, 10⟩, ⟨0, 50, 60000, 12⟩] (by decide)

/-! ## C8: take-profit scenario (capital 10000, entry at 100, TP 10%) -/

lemma checkStop_first (t : Trader) (p : ℚ) (h : ¬ t.position = 0) :
    (checkStopConditions t p).1
      = (t.enableTakeProfit
          && decide ((p - t.entryPrice) / t.entryPrice ≥ t.takeProfitRate)) := by
  unfold checkStopConditions
  rw [if_neg h]
  show ((updateHighT t p).enableTakeProfit
      && decide ((p - (updateHighT t p).entryPrice) / (updateHighT t p).entryPrice
          ≥ (updateHighT t p).takeProfitRate)) = _
  rw [updateHighT_eq]

lemma checkStop_second (t : Trader) (p : ℚ) (h : ¬ t.position = 0) :
    (checkStopConditions t p).2.1
      = (t.enableStopLoss
          && (decide ((p - t.entryPrice) / t.entryPrice ≤ -t.stopLossRate)
            || (decide (max t.highestPrice p > t.entryPrice)
              && decide ((max t.highestPrice p - p) / max t.highestPrice p
                  ≥ t.trailingStopRate)))) := by
  unfold checkStopConditions
  rw [if_neg h]
  show ((updateHighT t p).enableStopLoss
      && (decide ((p - (updateHighT t p).entryPrice) / (updateHighT t p).entryPrice
            ≤ -(updateHighT t p).stopLossRate)
        || (decide ((updateHighT t p).highestPrice > (updateHighT t p).entryPrice)
          && decide (((updateHighT t p).highestPrice - p)
              / (updateHighT t p).highestPrice
              ≥ (updateHighT t p).trailingStopRate)))) = _
  rw [updateHighT_eq]

lemma c8_open_eq :
    (buy (initTrader 10000 false false true true false) 100 Reason.signalBuy).2
      = t8Mid 100 := by
  rw [buy_of_flat _ _ _ (by show ¬ (0:ℚ) > 0; norm_num)]
  norm_num [t8Mid, initTrader, applySlippage, feeRate, Trader.mk.injEq]

lemma runBars_append (bp : BuyParams) (sp : SellParams) (t : Trader)
    (l1 l2 : List (Option ℚ × Option Signals)) :
    runBars bp sp t (l1 ++ l2) = runBars bp sp (runBars bp sp t l1) l2 := by
  unfold runBars
  rw [List.foldl_append]

lemma t8Mid_position_ne (h : ℚ) : ¬ (t8Mid h).position = 0 := by
  show ¬ (100:ℚ) = 0
  norm_num

lemma c8_step (bp : BuyParams) (sp : SellParams) (sig : Signals)
    (hsig : checkTradingSignal bp sp sig = none) (h q : ℚ) (hhq : h ≤ q)
    (hq100 : 100 ≤ q) (hq110 : q < 110) :
    runStep bp sp (t8Mid h) (some q) (some sig) = t8Mid q := by
  have hq0 : ¬ q = 0 := by
    intro h0
    rw [h0] at hq100
    norm_num at hq100
  have hpos : (t8Mid h).position > 0 := by
    show (0:ℚ) < 100
    norm_num
  have h1 : (checkStopConditions (t8Mid h) q).1 = false := by
    rw [checkStop_first _ _ (t8Mid_position_ne h)]
    have hd : decide ((q - 100) / 100 ≥ (1/10 : ℚ)) = false := by
      apply decide_eq_false
      intro hge
      rw [ge_iff_le, le_div_iff₀ (by norm_num : (0:ℚ) < 100)] at hge
      linarith
    show ((true : Bool) && decide ((q - 100) / 100 ≥ (1/10 : ℚ))) = false
    rw [hd]
    rfl
  have h2 : (checkStopConditions (t8Mid h) q).2.1 = false := by
    rw [checkStop_second _ _ (t8Mid_position_ne h)]
    have hfix : decide ((q - 100) / 100 ≤ -(5/100 : ℚ)) = false := by
      apply decide_eq_false
      intro hle
      rw [div_le_iff₀ (by norm_num : (0:ℚ) < 100)] at hle
      linarith
    have htrail : decide ((q - q) / q ≥ (3/100 : ℚ)) = false := by
      apply decide_eq_false
      rw [ge_iff_le, sub_self, zero_div]
      norm_num
    show ((true : Bool)
        && (decide ((q - 100) / 100 ≤ -(5/100 : ℚ))
          || (decide (max h q > (100:ℚ))
            && decide ((max h q - q) / max h q ≥ (3/100 : ℚ))))) = false
    rw [max_eq_right hhq, hfix, htrail, Bool.and_false, Bool.or_false,
      Bool.and_false]
  rw [runStep_noStops bp sp (t8Mid h) q sig hq0 hpos h1 h2,
    execSignal_none bp sp _ q sig hsig, checkStopT_third,
    if_neg (t8Mid_position_ne h), updateHighT_eq]
  show ({ t8Mid h with highestPrice := max h q } : Trader) = t8Mid q
  rw [max_eq_right hhq]
  rfl

lemma c8_pre (bp : BuyParams) (sp : SellParams) (sig : Signals)
    (hsig : checkTradingSignal bp sp sig = none) :
    ∀ (pre : List ℚ) (h : ℚ), (∀ q ∈ pre, 100 ≤ q ∧ q < 110) →
    List.Chain' (· ≤ ·) (h :: pre) →
    ∃ h2 : ℚ, runBars bp sp (t8Mid h) (pre.map fun q => (some q, some sig))
        = t8Mid h2 := by
  intro pre
  induction pre with
  | nil => exact fun h _ _ => ⟨h, rfl⟩
  | cons q pre ih =>
    intro h hb hc
    obtain ⟨hq100, hq110⟩ := hb q (List.mem_cons_self q pre)
    have hhq : h ≤ q := (List.chain'_cons.mp hc).1
    show (∃ h2, runBars bp sp (runStep bp sp (t8Mid h) (some q) (some sig))
        (pre.map fun q => (some q, some sig)) = t8Mid h2)
    rw [c8_step bp sp sig hsig h q hhq hq100 hq110]
    exact ih q (fun r hr => hb r (List.mem_cons_of_mem q hr))
      (List.chain'_cons.mp hc).2

lemma c8_tp (bp : BuyParams) (sp : SellParams) (sig : Signals) (h p : ℚ)
    (hp : 110 ≤ p) :
    runStep bp sp (t8Mid h) (some p) (some sig) = t8Sold p := by
  have hp0 : ¬ p = 0 := by
    intro h0
    rw [h0] at hp
    norm_num at hp
  have hpos : (t8Mid h).position > 0 := by
    show (0:ℚ) < 100
    norm_num
  have htp : (checkStopConditions (t8Mid h) p).1 = true := by
    rw [checkStop_first _ _ (t8Mid_position_ne h)]
    show ((true : Bool) && decide ((p - 100) / 100 ≥ (1/10 : ℚ))) = true
    have hd : decide ((p - 100) / 100 ≥ (1/10 : ℚ)) = true := by
      apply decide_eq_true
      rw [ge_iff_le, le_div_iff₀ (by norm_num : (0:ℚ) < 100)]
      linarith
    rw [hd]
    rfl
  rw [runStep_takeProfit bp sp (t8Mid h) p sig hpos hp0 htp]
  have h3 : (checkStopConditions (t8Mid h) p).2.2 = t8Mid (max h p) := by
    rw [checkStopT_third, if_neg (t8Mid_position_ne h), updateHighT_eq]
    rfl
  rw [h3]
  rw [sell_of_open _ p Reason.takeProfit (by show ¬ (100:ℚ) = 0; norm_num)]
  norm_num [t8Mid, t8Sold, initTrader, applySlippage, feeRate,
    lastCapitalBefore, Trader.mk.injEq, Trade.sellT.injEq]

lemma c8_rest (bp : BuyParams) (sp : SellParams) (sig : Signals)
    (hsig : checkTradingSignal bp sp sig = none) :
    ∀ (qs : List ℚ) (t : Trader), ¬ t.position > 0 →
    runBars bp sp t (qs.map fun q => (some q, some sig)) = t := by
  intro qs
  induction qs with
  | nil => intro t _; rfl
  | cons q qs ih =>
    intro t ht
    show runBars bp sp (runStep bp sp t (some q) (some sig))
        (qs.map fun q => (some q, some sig)) = t
    by_cases hq : q = 0
    · rw [show runStep bp sp t (some q) (some sig) = t from by
        simp only [runStep]; rw [if_pos hq]]
      exact ih t ht
    · rw [runStep_flat bp sp t q sig hq ht, execSignal_none bp sp t q sig hsig]
      exact ih t ht

/-- C8, counterexample: the claim "for any bar sequence whose prices
reach 115 the take-profit exit fires at price 110 exactly, pnlPercent is
10.0 and the final capital 11000" fails: with entry at 100 and the single
bar 115 the exit executes at the triggering bar's own price 115, records
pnlPercent 15 and leaves a final capital of 11500. -/
theorem takeProfit_at_110_counterexample :
    t8Run defaultBuyParams defaultSellParams ⟨0, 0, 0, 0⟩ [115] = t8Sold 115 ∧
    (t8Run defaultBuyParams defaultSellParams ⟨0, 0, 0, 0⟩ [115]).capital
      = 11500 ∧
    ¬ (t8Run defaultBuyParams defaultSellParams ⟨0, 0, 0, 0⟩ [115]).capital
      = 11000 ∧
    (t8Run defaultBuyParams defaultSellParams ⟨0, 0, 0, 0⟩ [115]).trades
      = [Trade.buyT 100 100 0 100 0 10000 Reason.signalBuy,
        Trade.sellT 115 115 0 100 0 11500 15 1500 Reason.takeProfit] := by
  have hrun : t8Run defaultBuyParams defaultSellParams ⟨0, 0, 0, 0⟩ [115]
      = t8Sold 115 := by
    unfold t8Run
    rw [c8_open_eq]
    show runBars defaultBuyParams defaultSellParams
        (runStep defaultBuyParams defaultSellParams (t8Mid 100) (some 115)
          (some ⟨0, 0, 0, 0⟩)) [] = t8Sold 115
    rw [c8_tp defaultBuyParams defaultSellParams ⟨0, 0, 0, 0⟩ 100 115
      (by norm_num)]
    rfl
  refine ⟨hrun, ?_, ?_, ?_⟩ <;> rw [hrun] <;> norm_num [t8Sold, initTrader]

/-- C8, amended: with initial capital 10000, entry at 100, fees and
slippage disabled and take-profit 10%, for every bar sequence that rises
(non-decreasingly) through prices in [100, 110) and then reaches a price
`p ≥ 110`, the take-profit exit fires at that first triggering bar, at
that bar's own price `p`: the run ends flat in the state `t8Sold p`, with
final capital `100 * p`, recorded pnlPercent `p - 100`, and one
take-profit count — so the exit price is 110 exactly (with pnlPercent
10.0 and final capital 11000) precisely when the first bar to reach the
threshold trades at 110. -/
theorem takeProfit_scenario (bp : BuyParams) (sp : SellParams) (sig : Signals)
    (pre rest : List ℚ) (p : ℚ)
    (hsig : checkTradingSignal bp sp sig = none)
    (hpre : ∀ q ∈ pre, 100 ≤ q ∧ q < 110)
    (hchain : List.Chain' (· ≤ ·) (100 :: pre))
    (hp : 110 ≤ p) :
    t8Run bp sp sig (pre ++ p :: rest) = t8Sold p ∧
    (t8Sold p).capital = 100 * p ∧
    (t8Sold p).takeProfitCount = 1 ∧
    (t8Sold p).position = 0 := by
  refine ⟨?_, rfl, rfl, rfl⟩
  unfold t8Run
  rw [c8_open_eq, List.map_append, runBars_append]
  obtain ⟨h2, hmid⟩ := c8_pre bp sp sig hsig pre 100 hpre hchain
  rw [hmid]
  show runBars bp sp (runStep bp sp (t8Mid h2) (some p) (some sig))
      (rest.map fun q => (some q, some sig)) = t8Sold p
  rw [c8_tp bp sp sig h2 p hp]
  exact c8_rest bp sp sig hsig rest (t8Sold p)
    (by show ¬ (0:ℚ) > 0; norm_num)

/-- C8, witness: the amended theorem applied to the bar sequence
`[102, 105, 110, 115]` after entry at 100 — the first bar at the
threshold trades at 110, so the exit fires at 110 with final capital
11000 and pnlPercent 10. -/
theorem takeProfit_scenario_witness :
    t8Run defaultBuyParams defaultSellParams ⟨0, 0, 0, 0⟩ [102, 105, 110, 115]
      = t8Sold 110 ∧
    (t8Sold 110).capital = 11000 ∧
    (t8Sold 110).trades
      = [Trade.buyT 100 100 0 100 0 10000 Reason.signalBuy,
        Trade.sellT 110 110 0 100 0 11000 10 1000 Reason.takeProfit] := by
  have h := takeProfit_scenario defaultBuyParams defaultSellParams ⟨0, 0, 0, 0⟩
    [102, 105] [115] 110
    (by norm_num [checkTradingSignal, defaultBuyParams, defaultSellParams])
    (by norm_num) (by norm_num) (by norm_num)
  exact ⟨h.1, by norm_num [t8Sold, initTrader], by norm_num [t8Sold, initTrader]⟩

end Cryptor
